import Mathlib

/-!
Verification of the measurement-and-statistics engine of the
`llm_api_benchmark` repository: a shallow embedding of
`src/llm_api_benchmark/providers.py` and
`src/llm_api_benchmark/benchmark.py` into Lean, together with theorems
settling the specification's claims about it.

Python floating-point numbers are modelled as rationals (`ℚ`), except the
standard deviation, whose square root is carried in `ℝ`.  Decoded JSON
response bodies are modelled by the inductive type `JValue`.  Python
exceptions are modelled with `Except PyErr`.
-/

namespace LLMBench

/-- A decoded JSON value, as produced by Python's `json` module:
`None`, booleans, finite numbers (`int`/`float`, modelled as exact
`ℚ`), the non-finite floats `nan`/`inf`/`-inf` that `json.loads`
produces for the `NaN`/`Infinity`/`-Infinity` literals (tagged by their
literal, since they have no rational value — the embedded code only
ever subjects them to truthiness, attribute access and equality tests,
none of which inspect a numeric value), strings, lists and string-keyed
dictionaries (duplicate-free association lists in key-insertion
order, as Python dicts are). -/
inductive JValue where
  | null
  | bool (b : Bool)
  | num (q : ℚ)
  | nonfinite (lit : String)
  | str (s : String)
  | arr (xs : List JValue)
  | obj (kvs : List (String × JValue))

/-- The Python exceptions the embedded code can raise. -/
inductive PyErr where
  | attributeError
  | indexError
  | keyError
  | typeError
  | unboundLocalError
deriving DecidableEq

/-- Python truthiness (`bool(x)`) of a JSON value: `None`, `False`, `0`,
`""`, `[]` and `{}` are falsy, everything else truthy. -/
def pyTruthy : JValue → Bool
  | .null => false
  | .bool b => b
  | .num q => decide (q ≠ 0)
  | .nonfinite _ => true
  | .str s => decide (s ≠ "")
  | .arr xs => !xs.isEmpty
  | .obj kvs => !kvs.isEmpty

/-- Python's `x.get(key, default)`: on a dictionary, the value stored at
`key` (or `default` when the key is absent); on any non-dictionary JSON
value there is no `get` attribute, so `AttributeError` is raised. -/
def pyGet (x : JValue) (key : String) (dflt : JValue) : Except PyErr JValue :=
  match x with
  | .obj kvs => .ok ((kvs.lookup key).getD dflt)
  | _ => .error .attributeError

/-- Python's `x[0]`: on a list, the first element (`IndexError` when
empty); on a string, its first character as a one-character string
(`IndexError` when empty); on a dictionary, `KeyError` (JSON
dictionaries have only string keys, so the key `0` is never present);
on every other JSON value, `TypeError`. -/
def pyIndex0 (x : JValue) : Except PyErr JValue :=
  match x with
  | .arr [] => .error .indexError
  | .arr (v :: _) => .ok v
  | .str s =>
    match s.data with
    | [] => .error .indexError
    | c :: _ => .ok (.str (String.mk [c]))
  | .obj _ => .error .keyError
  | _ => .error .typeError

/-- Python's `x == 0` for a JSON value: numbers compare numerically and
booleans compare as `0`/`1`; every other value is not equal to `0`. -/
def pyEqZero : JValue → Bool
  | .num q => decide (q = 0)
  | .bool b => !b
  | _ => false

/-- Python's `x == "lit"` for a JSON value against a string literal:
only a string with the same contents compares equal. -/
def pyEqStr (x : JValue) (lit : String) : Bool :=
  match x with
  | .str s => s == lit
  | _ => false

/-- The whitespace characters of Python's `str` methods (`strip`,
`isspace`, no-separator `split`): the characters CPython's
`Py_UNICODE_ISSPACE` accepts, namely `\t`, `\n`, `\v`, `\f`, `\r`, the
`\x1c`-`\x1f` file/group/record/unit separators, the space, the next
line U+0085, the no-break space U+00A0, the Ogham space mark U+1680,
the U+2000-U+200A typographic spaces, the line separator U+2028, the
paragraph separator U+2029, the narrow no-break space U+202F, the
medium mathematical space U+205F and the ideographic space U+3000. -/
def isPyStrWs (c : Char) : Bool :=
  c = ' ' || c = '\t' || c = '\n' || c = '\r' || c = '\x0b' || c = '\x0c' ||
  c = '\x1c' || c = '\x1d' || c = '\x1e' || c = '\x1f' ||
  c = '\x85' || c = '\xa0' || c = '\u1680' ||
  ('\u2000' <= c && c <= '\u200a') ||
  c = '\u2028' || c = '\u2029' || c = '\u202f' || c = '\u205f' || c = '\u3000'

/-- Accumulating scanner behind `pySplitWs`: `acc` holds the reversed
characters of the segment being read. -/
def pySplitAux : List Char → List Char → List String
  | [], acc => if acc.isEmpty then [] else [String.mk acc.reverse]
  | c :: cs, acc =>
    if isPyStrWs c then
      if acc.isEmpty then pySplitAux cs []
      else String.mk acc.reverse :: pySplitAux cs []
    else pySplitAux cs (c :: acc)

/-- Python's `s.split()` (no separator): the maximal non-whitespace
segments, in order; runs of whitespace produce no empty segments. -/
def pySplitWs (s : String) : List String :=
  pySplitAux s.data []

/-- Python's `s.lower()`: per-character lower-casing. -/
def pyLower (s : String) : String :=
  String.mk (s.data.map Char.toLower)

/-- Python's `s.strip()`: drop leading and trailing whitespace
characters. -/
def pyStrip (s : String) : String :=
  String.mk (((s.data.dropWhile isPyStrWs).reverse.dropWhile isPyStrWs).reverse)

/-- Python's `s.startswith(prefix)`. -/
def pyStartsWith (s pre : String) : Bool :=
  pre.data.isPrefixOf s.data

/-- Python's `s[n:]`: drop the first `n` characters. -/
def pyStrDrop (s : String) (n : ℕ) : String :=
  String.mk (s.data.drop n)

/-! Provider adapters (`providers.py`).

Each concrete provider's methods are embedded as standalone functions;
the `self.model` field of the Python object is passed explicitly where
a method reads it. -/

/-- Method `OpenAIProvider.build_chat_payload`: the request body dictionary, in
key-insertion order. -/
def openai_build_chat_payload (model prompt : String) (stream : Bool) :
    List (String × JValue) :=
  [("model", .str model),
   ("messages", .arr [.obj [("role", .str "user"), ("content", .str prompt)]]),
   ("stream", .bool stream)]

/-- Method `OpenAIProvider.parse_content`:
`response_json.get("choices", [{}])[0].get("message", {}).get("content", "")`. -/
def openai_parse_content (response_json : JValue) : Except PyErr JValue := do
  let choices ← pyGet response_json "choices" (.arr [.obj []])
  let first ← pyIndex0 choices
  let message ← pyGet first "message" (.obj [])
  pyGet message "content" (.str "")

/-- Method `OpenAIProvider.parse_token_count`: the `usage.completion_tokens`
field; when it compares equal to `0` (also when absent, via the `0`
default), fall back to `len(content.split()) if content else 0` on the
parsed content. -/
def openai_parse_token_count (response_json : JValue) : Except PyErr JValue := do
  let usage ← pyGet response_json "usage" (.obj [])
  let count ← pyGet usage "completion_tokens" (.num 0)
  if pyEqZero count then
    let content ← openai_parse_content response_json
    if pyTruthy content then
      match content with
      | .str s => pure (.num (pySplitWs s).length)
      | _ => throw .attributeError
    else
      pure (.num 0)
  else
    pure count

/-- Method `ClaudeProvider.build_chat_payload`: model, a fixed
`max_tokens = 1024`, the messages; the `stream` key is added (set to
`True`) only when streaming was requested. -/
def claude_build_chat_payload (model prompt : String) (stream : Bool) :
    List (String × JValue) :=
  let payload : List (String × JValue) :=
    [("model", .str model),
     ("max_tokens", .num 1024),
     ("messages", .arr [.obj [("role", .str "user"), ("content", .str prompt)]])]
  if stream then payload ++ [("stream", .bool true)] else payload

/-- Method `ClaudeProvider.parse_token_count`:
`response_json.get("usage", {}).get("output_tokens", 0)` — no fallback. -/
def claude_parse_token_count (response_json : JValue) : Except PyErr JValue := do
  let usage ← pyGet response_json "usage" (.obj [])
  pyGet usage "output_tokens" (.num 0)

/-- Method `ClaudeProvider.parse_content`: the `content` list's first block's
`text` field when the list is truthy, otherwise the empty string. -/
def claude_parse_content (response_json : JValue) : Except PyErr JValue := do
  let content_blocks ← pyGet response_json "content" (.arr [])
  if pyTruthy content_blocks then
    let first ← pyIndex0 content_blocks
    pyGet first "text" (.str "")
  else
    pure (.str "")

/-- Method `AzureOpenAIProvider.build_chat_payload`: like OpenAI's but without
the `model` key (the model is implied by the endpoint path). -/
def azure_build_chat_payload (prompt : String) (stream : Bool) :
    List (String × JValue) :=
  [("messages", .arr [.obj [("role", .str "user"), ("content", .str prompt)]]),
   ("stream", .bool stream)]

/-- Method `AzureOpenAIProvider.parse_content`: identical body to the OpenAI
variant's. -/
def azure_parse_content (response_json : JValue) : Except PyErr JValue := do
  let choices ← pyGet response_json "choices" (.arr [.obj []])
  let first ← pyIndex0 choices
  let message ← pyGet first "message" (.obj [])
  pyGet message "content" (.str "")

/-- Method `AzureOpenAIProvider.parse_token_count`: identical body to the
OpenAI variant's. -/
def azure_parse_token_count (response_json : JValue) : Except PyErr JValue := do
  let usage ← pyGet response_json "usage" (.obj [])
  let count ← pyGet usage "completion_tokens" (.num 0)
  if pyEqZero count then
    let content ← azure_parse_content response_json
    if pyTruthy content then
      match content with
      | .str s => pure (.num (pySplitWs s).length)
      | _ => throw .attributeError
    else
      pure (.num 0)
  else
    pure count

/-! The provider factory (`create_provider`). -/

/-- A constructed provider adapter instance, carrying the configuration
triple its Python constructor stored on `self`. -/
inductive ProviderInstance where
  | openaiP (api_url api_key model : String)
  | claudeP (api_url api_key model : String)
  | azureP (api_url api_key model : String)
deriving DecidableEq

/-- The module-level `PROVIDERS` registry: tag → constructor, in the
source's insertion order. -/
def PROVIDERS : List (String × (String → String → String → ProviderInstance)) :=
  [("openai", .openaiP), ("claude", .claudeP), ("azure", .azureP)]

/-- Function `create_provider`: look the lower-cased tag up in `PROVIDERS`; on a
miss raise `ValueError` with a message naming the tag and joining the
registry's keys with `", "`. -/
def create_provider (api_type api_url api_key model : String) :
    Except String ProviderInstance :=
  match PROVIDERS.lookup (pyLower api_type) with
  | some provider_class => .ok (provider_class api_url api_key model)
  | none =>
    let supported := String.intercalate ", " (PROVIDERS.map Prod.fst)
    .error ("不支持的 API 类型: " ++ api_type ++ "。支持的类型: " ++ supported)

/-! Streaming-event detection (`is_first_content_event`).

The OpenAI/Azure variants operate on the raw byte line (modelled as a
list of byte values); the Claude variant first decodes the line with
`line.decode("utf-8", errors="ignore")` and its result depends only on
the decoded text — an empty byte line (the `if not line` guard) and a
non-empty byte line whose decode is empty both return false, through the
guard and through the failing `data:`-prefix test respectively — so the
decode step is left abstract and the Claude function takes the decoded
text as input. -/

/-- The ASCII whitespace bytes stripped by Python's `bytes.strip()`:
`\t`, `\n`, `\v`, `\f`, `\r`, space. -/
def isPyWsByte (b : ℕ) : Bool :=
  b == 9 || b == 10 || b == 11 || b == 12 || b == 13 || b == 32

/-- Python's `line.strip()` on bytes: drop leading and trailing ASCII
whitespace bytes. -/
def bytesStrip (line : List ℕ) : List ℕ :=
  ((line.dropWhile isPyWsByte).reverse.dropWhile isPyWsByte).reverse

/-- Method `OpenAIProvider.is_first_content_event`:
`bool(line and line.strip())`. -/
def openai_is_first_content_event (line : List ℕ) : Bool :=
  !line.isEmpty && !(bytesStrip line).isEmpty

/-- Method `AzureOpenAIProvider.is_first_content_event`: identical body to the
OpenAI variant's. -/
def azure_is_first_content_event (line : List ℕ) : Bool :=
  !line.isEmpty && !(bytesStrip line).isEmpty

/-! A model of Python's `json.loads` (recursive-descent JSON parser,
totalised by input-length fuel), used by the Claude variant's
streaming-event test. -/

/-- The JSON whitespace characters. -/
def jIsWs (c : Char) : Bool :=
  c = ' ' || c = '\t' || c = '\n' || c = '\r'

/-- Skip leading JSON whitespace. -/
def jSkipWs : List Char → List Char
  | [] => []
  | c :: cs => if jIsWs c then jSkipWs cs else c :: cs

/-- The value of a hexadecimal digit. -/
def hexVal (c : Char) : Option ℕ :=
  if '0' ≤ c ∧ c ≤ '9' then some (c.toNat - '0'.toNat)
  else if 'a' ≤ c ∧ c ≤ 'f' then some (c.toNat - 'a'.toNat + 10)
  else if 'A' ≤ c ∧ c ≤ 'F' then some (c.toNat - 'A'.toNat + 10)
  else none

/-- Decode a `\uXXXX` escape at the given four characters, paired with
a (possible) second escape for surrogate pairs, as CPython's
`py_scanstring` does: a high surrogate immediately followed by a
`\uXXXX` low surrogate combines into one supplementary-plane character
(consuming both escapes); a surrogate left alone yields, in Python, a
lone-surrogate character, which Lean's `Char` cannot carry and which is
represented by U+FFFD here — the substitution never affects the
embedded code's decisions, since the strings it compares against
contain neither surrogates nor U+FFFD, and acceptance/rejection of the
escape is unchanged. -/
def decodeUEscape (h1 h2 h3 h4 : Char) (cs3 : List Char) :
    Option (Char × List Char) :=
  match hexVal h1, hexVal h2, hexVal h3, hexVal h4 with
  | some a, some b, some c2, some d =>
    let u := ((a * 16 + b) * 16 + c2) * 16 + d
    if 0xd800 ≤ u ∧ u ≤ 0xdbff then
      match cs3 with
      | '\\' :: 'u' :: g1 :: g2 :: g3 :: g4 :: cs4 =>
        match hexVal g1, hexVal g2, hexVal g3, hexVal g4 with
        | some a2, some b2, some c3, some d2 =>
          let u2 := ((a2 * 16 + b2) * 16 + c3) * 16 + d2
          if 0xdc00 ≤ u2 ∧ u2 ≤ 0xdfff then
            some (Char.ofNat (0x10000 + (u - 0xd800) * 0x400 + (u2 - 0xdc00)), cs4)
          else some ('\ufffd', cs3)
        | _, _, _, _ => some ('\ufffd', cs3)
      | _ => some ('\ufffd', cs3)
    else if 0xdc00 ≤ u ∧ u ≤ 0xdfff then
      some ('\ufffd', cs3)
    else
      some (Char.ofNat u, cs3)
  | _, _, _, _ => none

/-- Parse the body of a JSON string after its opening quote, handling
the escape sequences; rejects unescaped control characters. -/
def parseJStr : ℕ → List Char → Option (String × List Char)
  | 0, _ => none
  | _ + 1, [] => none
  | fuel + 1, c :: cs =>
    if c = '"' then some ("", cs)
    else if c = '\\' then
      match cs with
      | [] => none
      | e :: cs2 =>
        let esc : Option (Char × List Char) :=
          if e = '"' then some ('"', cs2)
          else if e = '\\' then some ('\\', cs2)
          else if e = '/' then some ('/', cs2)
          else if e = 'b' then some ('\x08', cs2)
          else if e = 'f' then some ('\x0c', cs2)
          else if e = 'n' then some ('\n', cs2)
          else if e = 'r' then some ('\r', cs2)
          else if e = 't' then some ('\t', cs2)
          else if e = 'u' then
            match cs2 with
            | h1 :: h2 :: h3 :: h4 :: cs3 => decodeUEscape h1 h2 h3 h4 cs3
            | _ => none
          else none
        match esc with
        | none => none
        | some (ch, rest) =>
          match parseJStr fuel rest with
          | some (s, rest2) => some (String.mk (ch :: s.data), rest2)
          | none => none
    else if c.toNat < 32 then none
    else
      match parseJStr fuel cs with
      | some (s, rest2) => some (String.mk (c :: s.data), rest2)
      | none => none

/-- The longest leading run of decimal digits, and the rest. -/
def takeDigits (cs : List Char) : List Char × List Char :=
  (cs.takeWhile Char.isDigit, cs.dropWhile Char.isDigit)

/-- The natural number denoted by a digit run. -/
def digitsToNat (ds : List Char) : ℕ :=
  ds.foldl (fun acc c => acc * 10 + (c.toNat - '0'.toNat)) 0

/-- Whether a digit run is a multi-digit run with a leading zero,
which the JSON number grammar rejects (`01` is a decode error; a lone
`0` and fractions like `0.5` are fine). -/
def hasLeadingZero : List Char → Bool
  | '0' :: _ :: _ => true
  | _ => false

/-- Parse a JSON number: optional minus, integer part without leading
zeros, optional fraction, optional exponent. -/
def parseJNum (cs : List Char) : Option (ℚ × List Char) :=
  let sgn : Bool × List Char :=
    match cs with
    | '-' :: rest => (true, rest)
    | _ => (false, cs)
  let (ip, cs2) := takeDigits sgn.2
  if ip.isEmpty then none
  else if hasLeadingZero ip then none
  else
    let base : ℚ := (digitsToNat ip : ℕ)
    let fracRes : Option (ℚ × List Char) :=
      match cs2 with
      | '.' :: rest =>
        let (fp, rest2) := takeDigits rest
        if fp.isEmpty then none
        else some (base + (digitsToNat fp : ℚ) / ((10 : ℚ) ^ fp.length), rest2)
      | _ => some (base, cs2)
    match fracRes with
    | none => none
    | some (m, cs3) =>
      let expRes : Option (ℚ × List Char) :=
        match cs3 with
        | e :: rest =>
          if e = 'e' ∨ e = 'E' then
            let sgn2 : Bool × List Char :=
              match rest with
              | '+' :: r => (false, r)
              | '-' :: r => (true, r)
              | _ => (false, rest)
            let (ed, rest3) := takeDigits sgn2.2
            if ed.isEmpty then none
            else
              let ev := digitsToNat ed
              some (if sgn2.1 then m / (10 : ℚ) ^ ev else m * (10 : ℚ) ^ ev, rest3)
          else some (m, cs3)
        | [] => some (m, cs3)
      match expRes with
      | none => none
      | some (v, cs4) => some (if sgn.1 then -v else v, cs4)

/-- Store a key/value pair in a dictionary modelled as a duplicate-free
association list, as Python's `dict.__setitem__` does: an existing key
keeps its position and gets the new value (so repeated JSON object keys
are last-wins), a new key is appended. -/
def dictInsert (kvs : List (String × JValue)) (k : String) (v : JValue) :
    List (String × JValue) :=
  match kvs with
  | [] => [(k, v)]
  | (k2, v2) :: rest =>
    if k2 == k then (k2, v) :: rest else (k2, v2) :: dictInsert rest k v

/-- Build the Python dict of a parsed JSON object from its member pairs
in source order. -/
def buildDict (pairs : List (String × JValue)) : List (String × JValue) :=
  pairs.foldl (fun d kv => dictInsert d kv.1 kv.2) []

mutual

/-- Parse one JSON value from the character stream (fuel-indexed),
including the non-standard `NaN`, `Infinity` and `-Infinity` literals
that Python's `json.loads` accepts by default. -/
def parseJValueAux : ℕ → List Char → Option (JValue × List Char)
  | 0, _ => none
  | fuel + 1, cs =>
    match jSkipWs cs with
    | [] => none
    | c :: rest =>
      if c = '{' then
        match jSkipWs rest with
        | '}' :: rest2 => some (.obj [], rest2)
        | rest2 =>
          match parseJObjItems fuel rest2 with
          | some (pairs, rest3) => some (.obj (buildDict pairs), rest3)
          | none => none
      else if c = '[' then
        match jSkipWs rest with
        | ']' :: rest2 => some (.arr [], rest2)
        | rest2 =>
          match parseJArrItems fuel rest2 with
          | some (vs, rest3) => some (.arr vs, rest3)
          | none => none
      else if c = '"' then
        match parseJStr (rest.length + 1) rest with
        | some (s, rest2) => some (.str s, rest2)
        | none => none
      else if c = 't' then
        match rest with
        | 'r' :: 'u' :: 'e' :: rest2 => some (.bool true, rest2)
        | _ => none
      else if c = 'f' then
        match rest with
        | 'a' :: 'l' :: 's' :: 'e' :: rest2 => some (.bool false, rest2)
        | _ => none
      else if c = 'n' then
        match rest with
        | 'u' :: 'l' :: 'l' :: rest2 => some (.null, rest2)
        | _ => none
      else if c = 'N' then
        match rest with
        | 'a' :: 'N' :: rest2 => some (.nonfinite "nan", rest2)
        | _ => none
      else if c = 'I' then
        match rest with
        | 'n' :: 'f' :: 'i' :: 'n' :: 'i' :: 't' :: 'y' :: rest2 =>
          some (.nonfinite "inf", rest2)
        | _ => none
      else if c = '-' then
        match rest with
        | 'I' :: 'n' :: 'f' :: 'i' :: 'n' :: 'i' :: 't' :: 'y' :: rest2 =>
          some (.nonfinite "-inf", rest2)
        | _ =>
          match parseJNum (c :: rest) with
          | some (v, rest2) => some (.num v, rest2)
          | none => none
      else
        match parseJNum (c :: rest) with
        | some (v, rest2) => some (.num v, rest2)
        | none => none

/-- Parse the comma-separated items of a non-empty JSON array, consuming
the closing bracket. -/
def parseJArrItems : ℕ → List Char → Option (List JValue × List Char)
  | 0, _ => none
  | fuel + 1, cs =>
    match parseJValueAux fuel cs with
    | none => none
    | some (v, rest) =>
      match jSkipWs rest with
      | ',' :: rest2 =>
        match parseJArrItems fuel rest2 with
        | some (vs, rest3) => some (v :: vs, rest3)
        | none => none
      | ']' :: rest2 => some ([v], rest2)
      | _ => none

/-- Parse the comma-separated members of a non-empty JSON object,
consuming the closing brace: the raw key/value pairs in source order
(duplicate keys are resolved last-wins by `buildDict` at the object
node, as Python's dict construction does). -/
def parseJObjItems : ℕ → List Char → Option (List (String × JValue) × List Char)
  | 0, _ => none
  | fuel + 1, cs =>
    match jSkipWs cs with
    | '"' :: rest =>
      match parseJStr (rest.length + 1) rest with
      | none => none
      | some (key, rest2) =>
        match jSkipWs rest2 with
        | ':' :: rest3 =>
          match parseJValueAux fuel rest3 with
          | none => none
          | some (v, rest4) =>
            match jSkipWs rest4 with
            | ',' :: rest5 =>
              match parseJObjItems fuel rest5 with
              | some (kvs, rest6) => some ((key, v) :: kvs, rest6)
              | none => none
            | '\x7d' :: rest5 => some ([(key, v)], rest5)
            | _ => none
        | _ => none
    | _ => none

end

/-- Python's `json.loads(s)`: parse one JSON value and require only
whitespace after it; anything else is a decode error
(`json.JSONDecodeError`, a `ValueError`).  Numeric literals are
represented exactly over `ℚ` instead of by IEEE doubles; the embedded
code never inspects a numeric value parsed here, so the two
representations are indistinguishable to it. -/
def json_loads (s : String) : Except Unit JValue :=
  match parseJValueAux (s.length + 1) s.data with
  | some (v, rest) => if (jSkipWs rest).isEmpty then .ok v else .error ()
  | none => .error ()

/-- Method `ClaudeProvider.is_first_content_event`, on the UTF-8-decoded line:
strip it, require the `data:` prefix, `json.loads` the remainder (a
decode failure is caught and yields false), then test
`data.get("type") == "content_block_delta"` — an attribute access that
raises `AttributeError` when the parsed value is not a dictionary, an
exception the source's `except (json.JSONDecodeError, ValueError)`
clause does not catch. -/
def claude_is_first_content_event (decoded_line : String) : Except PyErr Bool :=
  let decoded := pyStrip decoded_line
  if pyStartsWith decoded "data:" then
    match json_loads (pyStrip (pyStrDrop decoded 5)) with
    | .error _ => .ok false
    | .ok data =>
      match data with
      | .obj kvs => .ok (pyEqStr ((kvs.lookup "type").getD .null) "content_block_delta")
      | _ => .error .attributeError
  else
    .ok false

/-! The statistics aggregator (`LLMAPIBenchmark._compute_stats`). -/

/-- Python's `sorted(data)`: an ascending-sorted copy of the list. -/
def sortedData (data : List ℚ) : List ℚ :=
  data.insertionSort (· ≤ ·)

/-- Python's `statistics.mean(data)`: the arithmetic mean (only applied to
non-empty data in the source). -/
def mean (data : List ℚ) : ℚ :=
  data.sum / (data.length : ℚ)

/-- Python's `min(data)` on a non-empty list (`0` is an unreached
placeholder for the empty list, where Python would raise). -/
def listMin : List ℚ → ℚ
  | [] => 0
  | x :: xs => xs.foldl min x

/-- Python's `max(data)` on a non-empty list (`0` is an unreached
placeholder for the empty list, where Python would raise). -/
def listMax : List ℚ → ℚ
  | [] => 0
  | x :: xs => xs.foldl max x

/-- Python's `statistics.median(data)`: middle element of the sorted copy for odd
length, average of the two middle elements for even length. -/
def medianQ (data : List ℚ) : ℚ :=
  let s := sortedData data
  let n := s.length
  if n % 2 = 1 then s.getD (n / 2) 0
  else (s.getD (n / 2 - 1) 0 + s.getD (n / 2) 0) / 2

/-- Python's `int(k)` on a number: truncation toward zero. -/
def truncToInt (k : ℚ) : ℤ :=
  if 0 ≤ k then ⌊k⌋ else ⌈k⌉

/-- The body of the source's `percentile` closure after computing the
rank `k`: `f = math.floor(k)`, `c = math.ceil(k)`; the element at
`int(k)` when `f == c`, otherwise
`sorted_data[f] * (c - k) + sorted_data[c] * (k - f)`.  List indexing is
total via `getD` with an unreached `0` default (the indices are in range
for every rank the source passes). -/
def interpAt (s : List ℚ) (k : ℚ) : ℚ :=
  let f : ℤ := ⌊k⌋
  let c : ℤ := ⌈k⌉
  if f = c then s.getD (truncToInt k).toNat 0
  else s.getD f.toNat 0 * ((c : ℚ) - k) + s.getD c.toNat 0 * (k - (f : ℚ))

/-- The source's `percentile(pct)` closure over the sorted copy: the
sole element when `n == 1`, otherwise interpolation at rank
`k = (n - 1) * (pct / 100.0)`. -/
def percentile (s : List ℚ) (pct : ℚ) : ℚ :=
  if s.length = 1 then s.getD 0 0
  else interpAt s (((s.length : ℚ) - 1) * (pct / 100))

/-- The radicand of `statistics.stdev`: the sample variance, squared
deviations from the mean summed and divided by `n - 1`. -/
def sampleVariance (data : List ℚ) : ℚ :=
  let m := mean data
  (data.map (fun x => (x - m) ^ 2)).sum / ((data.length : ℚ) - 1)

/-- A value of the statistics dictionary: the six order/mean statistics
are rational, the standard deviation is real (a square root), and `raw`
holds the sample list. -/
inductive StatVal where
  | q (x : ℚ)
  | r (x : ℝ)
  | raw (xs : List ℚ)

/-- Method `_compute_stats(data)`: the statistics dictionary, in the source's
key-insertion order.  The empty list short-circuits to all-zero fields;
otherwise the fields are the mean, the extrema, the median, the 90th and
99th percentile of the sorted copy, `statistics.stdev(data)` when
`n >= 2` (else `0`), and a copy of the data. -/
noncomputable def compute_stats (data : List ℚ) : List (String × StatVal) :=
  if data = [] then
    [("avg", .q 0), ("min", .q 0), ("max", .q 0), ("median", .q 0),
     ("p90", .q 0), ("p99", .q 0), ("std_dev", .r 0), ("raw", .raw [])]
  else
    let s := sortedData data
    let n := s.length
    [("avg", .q (mean data)), ("min", .q (listMin data)), ("max", .q (listMax data)),
     ("median", .q (medianQ data)),
     ("p90", .q (percentile s 90)), ("p99", .q (percentile s 99)),
     ("std_dev", .r (if 2 ≤ n then Real.sqrt (sampleVariance data) else 0)),
     ("raw", .raw data)]

/-- Field access on a statistics dictionary (the keys used are always
present; the default is unreached). -/
def statVal (stats : List (String × StatVal)) (key : String) : StatVal :=
  (stats.lookup key).getD (.q 0)

/-- The rational value stored at a statistics key (`0` for the
`std_dev` and `raw` fields, which are not rational-valued). -/
def statQ (stats : List (String × StatVal)) (key : String) : ℚ :=
  match statVal stats key with
  | .q x => x
  | _ => 0

/-- The sample list stored at a statistics key (`[]` when the field is
not the `raw` field). -/
def statRaw (stats : List (String × StatVal)) (key : String) : List ℚ :=
  match statVal stats key with
  | .raw xs => xs
  | _ => []

/-- Modelled from the spec: percentile(p) by linear interpolation over
the ascending-sorted copy at rank `k = (n - 1) * p / 100` with
`f = floor(k)`, `c = ceil(k)` — the spec states no special case for a
one-element list, which it instead handles at the `StatsAggregator`
level. -/
def spec_percentile (s : List ℚ) (pct : ℚ) : ℚ :=
  interpAt s (((s.length : ℚ) - 1) * (pct / 100))

/-- Modelled from the spec: the `StatsAggregator` reference definition —
an empty series yields all-zero fields and an empty raw list; a
one-element series yields that value for every order/mean statistic and
zero standard deviation; a longer series yields the arithmetic mean, the
extrema, the standard median, the interpolated percentiles and the
sample standard deviation (denominator `n - 1`). -/
noncomputable def spec_stats (data : List ℚ) : List (String × StatVal) :=
  match data with
  | [] =>
    [("avg", .q 0), ("min", .q 0), ("max", .q 0), ("median", .q 0),
     ("p90", .q 0), ("p99", .q 0), ("std_dev", .r 0), ("raw", .raw [])]
  | [x] =>
    [("avg", .q x), ("min", .q x), ("max", .q x), ("median", .q x),
     ("p90", .q x), ("p99", .q x), ("std_dev", .r 0), ("raw", .raw [x])]
  | x :: y :: rest =>
    let d := x :: y :: rest
    let s := sortedData d
    [("avg", .q (mean d)), ("min", .q (listMin d)), ("max", .q (listMax d)),
     ("median", .q (medianQ d)),
     ("p90", .q (spec_percentile s 90)), ("p99", .q (spec_percentile s 99)),
     ("std_dev", .r (Real.sqrt (sampleVariance d))), ("raw", .raw d)]

/-! The benchmark runner loops (`benchmark.py`).

The HTTP transport and the wall clock are external collaborators: a
streaming run is represented by the pair of its response lines (in
arrival order) and the latency value that would be measured when the
first qualifying line arrives; a non-streaming run by the pair of its
elapsed wall time and the token count parsed from its body. -/

/-- The inner `for line in response.iter_lines()` scan of
`measure_first_token_latency`: stop at the first line for which the
provider's `is_first_content_event` returns true; an exception raised by
the event test propagates. -/
def findFirstEvent (event : α → Except PyErr Bool) : List α → Except PyErr Bool
  | [] => .ok false
  | l :: rest => do
    let b ← event l
    if b then pure true else findFirstEvent event rest

/-- The run loop of `measure_first_token_latency`, accumulating the
`latencies` list.  The loop-local variable `latency` is assigned only
inside the streaming scan's hit branch and survives across outer-loop
iterations, so it is threaded as an `Option`: the per-run
`print(f"... {latency:.3f} ...")` reads it unconditionally, raising
`UnboundLocalError` when no run has assigned it yet. -/
def first_token_loop (event : α → Except PyErr Bool) :
    List (List α × ℚ) → List ℚ → Option ℚ → Except PyErr (List ℚ)
  | [], latencies, _ => .ok latencies
  | (lines, lat) :: rest, latencies, lastLatency => do
    let found ← findFirstEvent event lines
    if found then
      first_token_loop event rest (latencies ++ [lat]) (some lat)
    else
      match lastLatency with
      | some l => first_token_loop event rest latencies (some l)
      | none => .error .unboundLocalError

/-- Method `measure_first_token_latency`: run the loop over the given runs with
an empty sample series and no `latency` binding; the source then reduces
the resulting series through `_compute_stats`. -/
def measure_first_token_latency (event : α → Except PyErr Bool)
    (runs : List (List α × ℚ)) : Except PyErr (List ℚ) :=
  first_token_loop event runs [] none

/-- The run loop of `measure_token_throughput` over
(elapsed wall time, parsed output-token count) pairs: every run appends
its elapsed time to `total_times`; a throughput sample
`output_tokens / elapsed` is appended exactly when both are positive. -/
def throughput_loop : List (ℚ × ℚ) → List ℚ × List ℚ → List ℚ × List ℚ
  | [], acc => acc
  | (elapsed, output_tokens) :: rest, (throughputs, total_times) =>
    let total_times := total_times ++ [elapsed]
    if 0 < elapsed ∧ 0 < output_tokens then
      throughput_loop rest (throughputs ++ [output_tokens / elapsed], total_times)
    else
      throughput_loop rest (throughputs, total_times)

/-- Method `measure_token_throughput`: the loop's two sample series reduced
through `_compute_stats`, returned as (throughput stats, total-time
stats). -/
noncomputable def measure_token_throughput (runs : List (ℚ × ℚ)) :
    List (String × StatVal) × List (String × StatVal) :=
  let acc := throughput_loop runs ([], [])
  (compute_stats acc.1, compute_stats acc.2)

/-- A value of the comprehensive-benchmark result dictionary. -/
inductive RValue where
  | s (v : String)
  | q (v : ℚ)
  | nat (v : ℕ)
  | stats (v : List (String × StatVal))

/-- The result record assembled at the end of
`run_comprehensive_benchmark`, in the source's key-insertion order.  The
three sample series (produced by the measurement loops) and the
report-generation timestamp (`datetime.now().isoformat()`) are
parameters; `len(prompt)` is the prompt's character count. -/
noncomputable def run_comprehensive_benchmark_record
    (model api_url api_type timestamp prompt : String) (runs : ℕ)
    (latencies throughputs total_times : List ℚ) : List (String × RValue) :=
  let latency_stats := compute_stats latencies
  let throughput_stats := compute_stats throughputs
  let total_time_stats := compute_stats total_times
  [("model", .s model),
   ("api_url", .s api_url),
   ("api_type", .s api_type),
   ("timestamp", .s timestamp),
   ("prompt_length", .nat prompt.length),
   ("runs", .nat runs),
   ("first_token_latency", .q (statQ latency_stats "avg")),
   ("token_throughput", .q (statQ throughput_stats "avg")),
   ("total_time", .q (statQ total_time_stats "avg")),
   ("first_token_latency_stats", .stats latency_stats),
   ("token_throughput_stats", .stats throughput_stats),
   ("total_time_stats", .stats total_time_stats)]

/-! Theorems. -/

/-- The Azure variant's `parse_content` body is identical to the OpenAI
variant's. -/
theorem azure_parse_content_eq (x : JValue) :
    azure_parse_content x = openai_parse_content x := rfl

/-- C7: the provider factory maps the provider-kind tag
case-insensitively — a tag lower-casing to `openai` / `claude` /
`azure` yields the corresponding adapter constructed from the given
endpoint, credential and model, and every other tag yields a
`ValueError` whose message names the unsupported tag and enumerates the
supported tags.  The factory is a pure function, so the error is raised
before any network activity. -/
theorem create_provider_spec (api_type api_url api_key model : String) :
    (pyLower api_type = "openai" →
      create_provider api_type api_url api_key model =
        .ok (.openaiP api_url api_key model)) ∧
    (pyLower api_type = "claude" →
      create_provider api_type api_url api_key model =
        .ok (.claudeP api_url api_key model)) ∧
    (pyLower api_type = "azure" →
      create_provider api_type api_url api_key model =
        .ok (.azureP api_url api_key model)) ∧
    (pyLower api_type ∉ (["openai", "claude", "azure"] : List String) →
      create_provider api_type api_url api_key model =
        .error ("不支持的 API 类型: " ++ api_type ++
          "。支持的类型: " ++ "openai, claude, azure")) := by
  refine ⟨fun h => ?_, fun h => ?_, fun h => ?_, fun h => ?_⟩ <;>
    simp only [create_provider, PROVIDERS, List.lookup, h]
  · rfl
  · rfl
  · rfl
  · rw [show (pyLower api_type == "openai") = false from
        beq_eq_false_iff_ne.mpr (fun e => h (by simp [e])),
      show (pyLower api_type == "claude") = false from
        beq_eq_false_iff_ne.mpr (fun e => h (by simp [e])),
      show (pyLower api_type == "azure") = false from
        beq_eq_false_iff_ne.mpr (fun e => h (by simp [e]))]
    rfl

/-- C7 witness: the factory at the concrete tags `"OpenAI"` (mixed
case) and `"invalid_type"`. -/
theorem create_provider_spec_witness :
    create_provider "OpenAI" "http://test" "key" "gpt-4" =
      .ok (.openaiP "http://test" "key" "gpt-4") ∧
    create_provider "invalid_type" "http://test" "key" "gpt-4" =
      .error ("不支持的 API 类型: invalid_type。支持的类型: openai, claude, azure") :=
  ⟨(create_provider_spec "OpenAI" "http://test" "key" "gpt-4").1 (by decide),
   (create_provider_spec "invalid_type" "http://test" "key" "gpt-4").2.2.2 (by decide)⟩

/-- C8: every variant's `build_chat_payload` embeds the prompt verbatim
as the single user message's content; the Claude variant omits the
`stream` key entirely when not streaming, includes `stream = true` when
streaming, and always pins `max_tokens` to 1024; the Azure variant's
payload never contains a `model` key while the OpenAI and Claude
variants' always do. -/
theorem build_chat_payload_spec (model prompt : String) (stream : Bool) :
    ((openai_build_chat_payload model prompt stream).lookup "messages" =
      some (.arr [.obj [("role", .str "user"), ("content", .str prompt)]])) ∧
    ((claude_build_chat_payload model prompt stream).lookup "messages" =
      some (.arr [.obj [("role", .str "user"), ("content", .str prompt)]])) ∧
    ((azure_build_chat_payload prompt stream).lookup "messages" =
      some (.arr [.obj [("role", .str "user"), ("content", .str prompt)]])) ∧
    ((claude_build_chat_payload model prompt false).lookup "stream" = none) ∧
    ((claude_build_chat_payload model prompt true).lookup "stream" =
      some (.bool true)) ∧
    ((claude_build_chat_payload model prompt stream).lookup "max_tokens" =
      some (.num 1024)) ∧
    ((azure_build_chat_payload prompt stream).lookup "model" = none) ∧
    ((openai_build_chat_payload model prompt stream).lookup "model" =
      some (.str model)) ∧
    ((claude_build_chat_payload model prompt stream).lookup "model" =
      some (.str model)) := by
  cases stream <;>
    simp [openai_build_chat_payload, claude_build_chat_payload,
      azure_build_chat_payload, List.lookup]

/-- C3 counterexample: on the decoded body `{"choices": []}` — the key
present but the list empty, so the `.get("choices", [{}])` default does
not apply — the OpenAI variant's `parse_content` raises `IndexError`
instead of returning the empty string, refuting the claim's "never
raises". -/
theorem parse_content_raises_on_empty_choices :
    openai_parse_content (.obj [("choices", .arr [])]) = .error .indexError := rfl

/-- C3 (amended): `parse_content` returns the first choice's message
content (OpenAI/Azure) or the first content block's text (Claude), and
the empty string whenever one of the traversed keys is absent, without
raising — provided each traversed field that is present has the
vendor's shape; a present-but-empty `choices` list raises `IndexError`
for the OpenAI and Azure variants (the Claude variant returns the empty
string for an empty `content` list). -/
theorem parse_content_amended (kvs : List (String × JValue)) :
    (kvs.lookup "choices" = none →
      openai_parse_content (.obj kvs) = .ok (.str "") ∧
      azure_parse_content (.obj kvs) = .ok (.str "")) ∧
    (kvs.lookup "choices" = some (.arr []) →
      openai_parse_content (.obj kvs) = .error .indexError ∧
      azure_parse_content (.obj kvs) = .error .indexError) ∧
    (∀ ckvs rest, kvs.lookup "choices" = some (.arr (.obj ckvs :: rest)) →
      (ckvs.lookup "message" = none →
        openai_parse_content (.obj kvs) = .ok (.str "") ∧
        azure_parse_content (.obj kvs) = .ok (.str "")) ∧
      (∀ mkvs, ckvs.lookup "message" = some (.obj mkvs) →
        openai_parse_content (.obj kvs) = .ok ((mkvs.lookup "content").getD (.str "")) ∧
        azure_parse_content (.obj kvs) = .ok ((mkvs.lookup "content").getD (.str "")))) ∧
    (kvs.lookup "content" = none → claude_parse_content (.obj kvs) = .ok (.str "")) ∧
    (kvs.lookup "content" = some (.arr []) →
      claude_parse_content (.obj kvs) = .ok (.str "")) ∧
    (∀ bkvs rest, kvs.lookup "content" = some (.arr (.obj bkvs :: rest)) →
      claude_parse_content (.obj kvs) = .ok ((bkvs.lookup "text").getD (.str ""))) := by
  refine ⟨fun h => ?_, fun h => ?_, fun ckvs rest h => ⟨fun h2 => ?_, fun mkvs h2 => ?_⟩,
    fun h => ?_, fun h => ?_, fun bkvs rest h => ?_⟩
  · refine ⟨?_, ?_⟩ <;>
      simp [openai_parse_content, azure_parse_content, pyGet, pyIndex0, h,
        Bind.bind, Except.bind, Pure.pure, Except.pure]
  · refine ⟨?_, ?_⟩ <;>
      simp [openai_parse_content, azure_parse_content, pyGet, pyIndex0, h,
        Bind.bind, Except.bind, Pure.pure, Except.pure]
  · refine ⟨?_, ?_⟩ <;>
      simp [openai_parse_content, azure_parse_content, pyGet, pyIndex0, h, h2,
        Bind.bind, Except.bind, Pure.pure, Except.pure]
  · refine ⟨?_, ?_⟩ <;>
      simp [openai_parse_content, azure_parse_content, pyGet, pyIndex0, h, h2,
        Bind.bind, Except.bind, Pure.pure, Except.pure]
  · simp [claude_parse_content, pyGet, pyIndex0, pyTruthy, h,
      Bind.bind, Except.bind, Pure.pure, Except.pure]
  · simp [claude_parse_content, pyGet, pyIndex0, pyTruthy, h,
      Bind.bind, Except.bind, Pure.pure, Except.pure]
  · simp [claude_parse_content, pyGet, pyIndex0, pyTruthy, h,
      Bind.bind, Except.bind, Pure.pure, Except.pure]

/-- C3 witness: the amended theorem applied at a well-shaped OpenAI
body and at a Claude body with an empty `content` list. -/
theorem parse_content_amended_witness :
    openai_parse_content
      (.obj [("choices", .arr [.obj [("message", .obj [("content", .str "hello world")])]])]) =
      .ok (.str "hello world") ∧
    claude_parse_content (.obj [("content", .arr [])]) = .ok (.str "") :=
  ⟨((parse_content_amended
      [("choices", .arr [.obj [("message", .obj [("content", .str "hello world")])]])]).2.2.1
      [("message", .obj [("content", .str "hello world")])] [] rfl).2
      [("content", .str "hello world")] rfl |>.1,
   (parse_content_amended [("content", .arr [])]).2.2.2.2.1 rfl⟩

/-- C5 counterexample: on the decoded body
`{"usage": {}, "choices": []}` the vendor count is absent, but the
OpenAI variant's fallback path calls `parse_content` on a
present-but-empty `choices` list and raises `IndexError` instead of
returning a whitespace-segment count. -/
theorem parse_token_count_raises_in_fallback :
    openai_parse_token_count (.obj [("usage", .obj []), ("choices", .arr [])]) =
      .error .indexError := rfl

/-- C5 (amended): for the OpenAI and Azure variants,
`parse_token_count` returns the vendor's `usage.completion_tokens`
count whenever it is present and nonzero, and exactly when that count
is zero or absent falls back to the number of whitespace-separated
segments of the parsed content (0 when the content is empty) — provided
the fallback's content extraction itself succeeds with a string; the
Claude variant always returns the vendor's `usage.output_tokens` value
(0 when absent) with no fallback. -/
theorem parse_token_count_amended (kvs : List (String × JValue)) :
    (∀ ukvs c, kvs.lookup "usage" = some (.obj ukvs) →
      ukvs.lookup "completion_tokens" = some (.num c) → c ≠ 0 →
      openai_parse_token_count (.obj kvs) = .ok (.num c) ∧
      azure_parse_token_count (.obj kvs) = .ok (.num c)) ∧
    (∀ s, (kvs.lookup "usage" = none ∨
        ∃ ukvs, kvs.lookup "usage" = some (.obj ukvs) ∧
          (ukvs.lookup "completion_tokens" = none ∨
           ukvs.lookup "completion_tokens" = some (.num 0))) →
      openai_parse_content (.obj kvs) = .ok (.str s) →
      openai_parse_token_count (.obj kvs) = .ok (.num (pySplitWs s).length) ∧
      azure_parse_token_count (.obj kvs) = .ok (.num (pySplitWs s).length)) ∧
    (kvs.lookup "usage" = none → claude_parse_token_count (.obj kvs) = .ok (.num 0)) ∧
    (∀ ukvs, kvs.lookup "usage" = some (.obj ukvs) →
      claude_parse_token_count (.obj kvs) =
        .ok ((ukvs.lookup "output_tokens").getD (.num 0))) := by
  have hazure : ∀ x, azure_parse_token_count x = openai_parse_token_count x := by
    intro x
    simp only [azure_parse_token_count, openai_parse_token_count, azure_parse_content_eq]
  refine ⟨fun ukvs c h h2 hc => ?_, fun s h hc => ?_, fun h => ?_, fun ukvs h => ?_⟩
  · rw [hazure, and_self]
    simp [openai_parse_token_count, pyGet, pyEqZero, h, h2, hc,
      Bind.bind, Except.bind, Pure.pure, Except.pure]
  · rw [hazure, and_self]
    rcases h with h | ⟨ukvs, h, h2 | h2⟩
    · by_cases hs : s = ""
      · subst hs
        simp [openai_parse_token_count, pyGet, pyEqZero, pyTruthy, hc, h,
          pySplitWs, pySplitAux, Bind.bind, Except.bind, Pure.pure, Except.pure]
      · simp [openai_parse_token_count, pyGet, pyEqZero, pyTruthy, hc, h, hs,
          Bind.bind, Except.bind, Pure.pure, Except.pure]
    · by_cases hs : s = ""
      · subst hs
        simp [openai_parse_token_count, pyGet, pyEqZero, pyTruthy, hc, h, h2,
          pySplitWs, pySplitAux, Bind.bind, Except.bind, Pure.pure, Except.pure]
      · simp [openai_parse_token_count, pyGet, pyEqZero, pyTruthy, hc, h, h2, hs,
          Bind.bind, Except.bind, Pure.pure, Except.pure]
    · by_cases hs : s = ""
      · subst hs
        simp [openai_parse_token_count, pyGet, pyEqZero, pyTruthy, hc, h, h2,
          pySplitWs, pySplitAux, Bind.bind, Except.bind, Pure.pure, Except.pure]
      · simp [openai_parse_token_count, pyGet, pyEqZero, pyTruthy, hc, h, h2, hs,
          Bind.bind, Except.bind, Pure.pure, Except.pure]
  · simp [claude_parse_token_count, pyGet, h, Bind.bind, Except.bind]
  · simp [claude_parse_token_count, pyGet, h, Bind.bind, Except.bind]

/-- C5 witness: the amended theorem applied at a body with a nonzero
vendor count and at bodies exercising the whitespace-count fallback,
including content split at a `\x1c` file separator, which Python's
`str.split()` treats as whitespace. -/
theorem parse_token_count_amended_witness :
    openai_parse_token_count
      (.obj [("usage", .obj [("completion_tokens", .num 42)]), ("choices", .arr [])]) =
      .ok (.num 42) ∧
    openai_parse_token_count
      (.obj [("usage", .obj []),
             ("choices", .arr [.obj [("message", .obj [("content", .str "a b c")])]])]) =
      .ok (.num 3) ∧
    openai_parse_token_count
      (.obj [("usage", .obj []),
             ("choices", .arr [.obj [("message", .obj [("content", .str "a\x1cb")])]])]) =
      .ok (.num 2) :=
  ⟨((parse_token_count_amended
      [("usage", .obj [("completion_tokens", .num 42)]), ("choices", .arr [])]).1
      [("completion_tokens", .num 42)] 42 rfl rfl (by norm_num)).1,
   ((parse_token_count_amended
      [("usage", .obj []),
       ("choices", .arr [.obj [("message", .obj [("content", .str "a b c")])]])]).2.1
      "a b c" (Or.inr ⟨[], rfl, Or.inl rfl⟩) rfl).1,
   ((parse_token_count_amended
      [("usage", .obj []),
       ("choices", .arr [.obj [("message", .obj [("content", .str "a\x1cb")])]])]).2.1
      "a\x1cb" (Or.inr ⟨[], rfl, Or.inl rfl⟩) rfl).1⟩

/-- A predicate holds on all of a list exactly when it holds on the
list after dropping its satisfying prefix. -/
theorem dropWhile_all (p : ℕ → Bool) (l : List ℕ) :
    (∀ b ∈ l.dropWhile p, p b) ↔ ∀ b ∈ l, p b := by
  constructor
  · intro h b hb
    rw [← List.takeWhile_append_dropWhile (p := p) (l := l)] at hb
    rcases List.mem_append.mp hb with hb | hb
    · exact List.mem_takeWhile_imp hb
    · exact h b hb
  · intro h b hb
    exact h b ((List.dropWhile_sublist p).subset hb)

/-- Python's `bytes.strip()` yields the empty bytes exactly when every byte of
the line is ASCII whitespace (in particular for the empty line). -/
theorem bytesStrip_eq_nil_iff (line : List ℕ) :
    bytesStrip line = [] ↔ ∀ b ∈ line, isPyWsByte b := by
  unfold bytesStrip
  rw [List.reverse_eq_nil_iff, List.dropWhile_eq_nil_iff]
  simp only [List.mem_reverse]
  rw [dropWhile_all]

/-- C4 counterexample: on the line `data: 123` the remainder parses as
the JSON number `123`, `data.get` raises `AttributeError`, and the
`except (json.JSONDecodeError, ValueError)` clause does not catch it —
refuting the claim that every non-matching line returns false without
raising. -/
theorem claude_event_raises_on_non_object_json :
    claude_is_first_content_event "data: 123" = .error .attributeError := rfl

/-- C4 (amended): the OpenAI and Azure variants return false exactly
for the empty and whitespace-only byte lines and true for every other
line; the Claude variant returns false without raising for every line
not starting (after stripping) with `data:`, for every `data:` line
whose remainder fails to parse as JSON, and — when the remainder parses
as a JSON object — returns whether the object's `type` field equals
`content_block_delta`; but when the remainder parses as a non-object
JSON value it raises `AttributeError`. -/
theorem is_first_content_event_amended :
    (∀ line : List ℕ,
      (openai_is_first_content_event line = false ↔ ∀ b ∈ line, isPyWsByte b) ∧
      azure_is_first_content_event line = openai_is_first_content_event line) ∧
    (∀ s : String,
      (pyStartsWith (pyStrip s) "data:" = false →
        claude_is_first_content_event s = .ok false) ∧
      (pyStartsWith (pyStrip s) "data:" = true →
        json_loads (pyStrip (pyStrDrop (pyStrip s) 5)) = .error () →
        claude_is_first_content_event s = .ok false) ∧
      (∀ kvs, pyStartsWith (pyStrip s) "data:" = true →
        json_loads (pyStrip (pyStrDrop (pyStrip s) 5)) = .ok (.obj kvs) →
        claude_is_first_content_event s =
          .ok (pyEqStr ((kvs.lookup "type").getD .null) "content_block_delta")) ∧
      (∀ v, pyStartsWith (pyStrip s) "data:" = true →
        json_loads (pyStrip (pyStrDrop (pyStrip s) 5)) = .ok v →
        (∀ kvs, v ≠ .obj kvs) →
        claude_is_first_content_event s = .error .attributeError)) := by
  constructor
  · intro line
    refine ⟨?_, rfl⟩
    cases line with
    | nil => simp [openai_is_first_content_event, bytesStrip]
    | cons b bs =>
      rw [← bytesStrip_eq_nil_iff]
      simp [openai_is_first_content_event, List.isEmpty_iff]
  · intro s
    refine ⟨fun h => ?_, fun h h2 => ?_, fun kvs h h2 => ?_, fun v h h2 hne => ?_⟩
    · simp [claude_is_first_content_event, h]
    · simp [claude_is_first_content_event, h, h2]
    · simp [claude_is_first_content_event, h, h2]
    · cases v with
      | obj kvs => exact absurd rfl (hne kvs)
      | null => simp [claude_is_first_content_event, h, h2]
      | bool b => simp [claude_is_first_content_event, h, h2]
      | num q => simp [claude_is_first_content_event, h, h2]
      | nonfinite lit => simp [claude_is_first_content_event, h, h2]
      | str t => simp [claude_is_first_content_event, h, h2]
      | arr xs => simp [claude_is_first_content_event, h, h2]

/-- C4 witness: the amended theorem applied at a whitespace-only byte
line, a non-`data:` line, a well-formed non-delta event, a delta event,
a `NaN` payload (parsed by `json.loads`, then raising on `.get`), a
leading-zero numeral (a decode error, caught, hence false), a
duplicate-key event read last-wins, and a line whose leading `\x1c` the
`strip()` removes. -/
theorem is_first_content_event_amended_witness :
    openai_is_first_content_event [32, 9, 32] = false ∧
    claude_is_first_content_event "event: ping" = .ok false ∧
    claude_is_first_content_event "data: \x7b\"type\":\"message_start\"\x7d" = .ok false ∧
    claude_is_first_content_event "data: \x7b\"type\":\"content_block_delta\"\x7d" = .ok true ∧
    claude_is_first_content_event "data: NaN" = .error .attributeError ∧
    claude_is_first_content_event "data: 01" = .ok false ∧
    claude_is_first_content_event
      "data: \x7b\"type\":\"x\",\"type\":\"content_block_delta\"\x7d" = .ok true ∧
    claude_is_first_content_event "\x1cdata: 123" = .error .attributeError :=
  ⟨((is_first_content_event_amended.1 [32, 9, 32]).1).mpr (by decide),
   (is_first_content_event_amended.2 "event: ping").1 rfl,
   (is_first_content_event_amended.2 "data: \x7b\"type\":\"message_start\"\x7d").2.2.1
     [("type", .str "message_start")] rfl rfl,
   (is_first_content_event_amended.2 "data: \x7b\"type\":\"content_block_delta\"\x7d").2.2.1
     [("type", .str "content_block_delta")] rfl rfl,
   (is_first_content_event_amended.2 "data: NaN").2.2.2
     (.nonfinite "nan") rfl rfl (fun kvs h => nomatch h),
   (is_first_content_event_amended.2 "data: 01").2.1 rfl rfl,
   (is_first_content_event_amended.2
     "data: \x7b\"type\":\"x\",\"type\":\"content_block_delta\"\x7d").2.2.1
     [("type", .str "content_block_delta")] rfl rfl,
   (is_first_content_event_amended.2 "\x1cdata: 123").2.2.2
     (.num 123) rfl rfl (fun kvs h => nomatch h)⟩

/-- C2 (code bug): when the first run's stream ends without any
qualifying line, the loop indeed appends no latency sample, but the
per-run print then reads the never-assigned loop variable `latency` and
the method raises `UnboundLocalError` — refuting the claim's "no
exception is raised".  When an earlier run has assigned `latency`, a
sampleless run is skipped silently, as the second conjunct shows. -/
theorem first_token_latency_unbound_local :
    measure_first_token_latency claude_is_first_content_event [([""], 1)] =
      .error .unboundLocalError ∧
    measure_first_token_latency claude_is_first_content_event
      [(["data: \x7b\"type\":\"content_block_delta\"\x7d"], 1), ([""], 5)] = .ok [1] :=
  ⟨rfl, rfl⟩

/-- The run loop of `measure_token_throughput`, from an arbitrary
accumulator: total times gain every elapsed value, throughputs gain the
quotients of the positive runs. -/
theorem throughput_loop_spec (runs : List (ℚ × ℚ)) (tps tts : List ℚ) :
    throughput_loop runs (tps, tts) =
      (tps ++ (runs.filter
        (fun r => decide (0 < r.1) && decide (0 < r.2))).map (fun r => r.2 / r.1),
       tts ++ runs.map Prod.fst) := by
  induction runs generalizing tps tts with
  | nil => simp [throughput_loop]
  | cons r rest ih =>
    obtain ⟨elapsed, tokens⟩ := r
    by_cases hp : 0 < elapsed ∧ 0 < tokens
    · rw [show throughput_loop ((elapsed, tokens) :: rest) (tps, tts) =
          throughput_loop rest (tps ++ [tokens / elapsed], tts ++ [elapsed]) by
            simp [throughput_loop, hp], ih]
      simp [List.filter_cons, decide_eq_true hp.1, decide_eq_true hp.2]
    · rw [show throughput_loop ((elapsed, tokens) :: rest) (tps, tts) =
          throughput_loop rest (tps, tts ++ [elapsed]) by simp [throughput_loop, hp], ih]
      rw [Classical.not_and_iff_or_not_not] at hp
      rcases hp with hp | hp <;>
        simp [List.filter_cons, decide_eq_false hp]

/-- A statistics dictionary's `raw` field is exactly the input series
(possibly empty). -/
theorem statRaw_compute_stats (data : List ℚ) :
    statRaw (compute_stats data) "raw" = data := by
  by_cases h : data = [] <;>
    simp [compute_stats, statRaw, statVal, h, List.lookup]

/-- C6: in every run of `measure_token_throughput` the elapsed wall
time is appended to the total-time series, and a throughput sample
`tokens / elapsed` is appended exactly when both the elapsed time and
the parsed token count are positive; the reduced summaries' `raw`
fields are exactly the two series, so the total-time raw length equals
the run count and the throughput raw length is at most the run count. -/
theorem measure_token_throughput_spec (runs : List (ℚ × ℚ)) :
    (throughput_loop runs ([], [])).2 = runs.map Prod.fst ∧
    (throughput_loop runs ([], [])).1 =
      (runs.filter
        (fun r => decide (0 < r.1) && decide (0 < r.2))).map (fun r => r.2 / r.1) ∧
    statRaw (measure_token_throughput runs).2 "raw" = runs.map Prod.fst ∧
    statRaw (measure_token_throughput runs).1 "raw" =
      (runs.filter
        (fun r => decide (0 < r.1) && decide (0 < r.2))).map (fun r => r.2 / r.1) ∧
    (statRaw (measure_token_throughput runs).2 "raw").length = runs.length ∧
    (statRaw (measure_token_throughput runs).1 "raw").length ≤ runs.length := by
  have h := throughput_loop_spec runs [] []
  rw [List.nil_append, List.nil_append] at h
  refine ⟨by rw [h], by rw [h], ?_, ?_, ?_, ?_⟩ <;>
    simp only [measure_token_throughput, statRaw_compute_stats, h,
      List.length_map]
  · exact List.length_filter_le _ _

/-- Every statistics dictionary carries exactly the eight contract
keys, in order. -/
theorem compute_stats_keys (data : List ℚ) :
    (compute_stats data).map Prod.fst =
      ["avg", "min", "max", "median", "p90", "p99", "std_dev", "raw"] := by
  by_cases h : data = [] <;> simp [compute_stats, h]

/-- C9: the comprehensive-benchmark record carries exactly the twelve
contract field names in order; each `*_stats` field is a statistics
dictionary with exactly the eight contract keys; `prompt_length` is the
prompt's character count; and each of the three top-level scalars
equals the `avg` field of its corresponding statistics dictionary. -/
theorem run_comprehensive_benchmark_record_spec
    (model api_url api_type timestamp prompt : String) (runs : ℕ)
    (latencies throughputs total_times : List ℚ) :
    (run_comprehensive_benchmark_record model api_url api_type timestamp prompt runs
        latencies throughputs total_times).map Prod.fst =
      ["model", "api_url", "api_type", "timestamp", "prompt_length", "runs",
       "first_token_latency", "token_throughput", "total_time",
       "first_token_latency_stats", "token_throughput_stats", "total_time_stats"] ∧
    (∀ data : List ℚ, (compute_stats data).map Prod.fst =
      ["avg", "min", "max", "median", "p90", "p99", "std_dev", "raw"]) ∧
    (run_comprehensive_benchmark_record model api_url api_type timestamp prompt runs
        latencies throughputs total_times).lookup "prompt_length" =
      some (.nat prompt.length) ∧
    (run_comprehensive_benchmark_record model api_url api_type timestamp prompt runs
        latencies throughputs total_times).lookup "first_token_latency" =
      some (.q (statQ (compute_stats latencies) "avg")) ∧
    (run_comprehensive_benchmark_record model api_url api_type timestamp prompt runs
        latencies throughputs total_times).lookup "token_throughput" =
      some (.q (statQ (compute_stats throughputs) "avg")) ∧
    (run_comprehensive_benchmark_record model api_url api_type timestamp prompt runs
        latencies throughputs total_times).lookup "total_time" =
      some (.q (statQ (compute_stats total_times) "avg")) ∧
    (run_comprehensive_benchmark_record model api_url api_type timestamp prompt runs
        latencies throughputs total_times).lookup "first_token_latency_stats" =
      some (.stats (compute_stats latencies)) ∧
    (run_comprehensive_benchmark_record model api_url api_type timestamp prompt runs
        latencies throughputs total_times).lookup "token_throughput_stats" =
      some (.stats (compute_stats throughputs)) ∧
    (run_comprehensive_benchmark_record model api_url api_type timestamp prompt runs
        latencies throughputs total_times).lookup "total_time_stats" =
      some (.stats (compute_stats total_times)) := by
  refine ⟨rfl, compute_stats_keys, ?_, ?_, ?_, ?_, ?_, ?_, ?_⟩ <;>
    simp [run_comprehensive_benchmark_record, List.lookup]

/-- A sorted copy has the length of the original list. -/
theorem sortedData_length (data : List ℚ) :
    (sortedData data).length = data.length :=
  (List.perm_insertionSort (· ≤ ·) data).length_eq

/-- C1: `_compute_stats` equals the spec's reference `StatsAggregator`
definition on every input series — all-zero fields with empty raw for
the empty series (no error), every statistic equal to the lone value
with zero standard deviation for a one-element series, and for longer
series the arithmetic mean, the extrema, the standard median, the
linearly interpolated percentiles over the ascending-sorted copy, and
the sample standard deviation with `n - 1` denominator. -/
theorem compute_stats_eq_spec_stats (data : List ℚ) :
    compute_stats data = spec_stats data := by
  match data with
  | [] => rfl
  | [x] =>
    have hsorted : sortedData [x] = [x] := rfl
    have hmean : mean [x] = x := by simp [mean]
    have hmed : medianQ [x] = x := by simp [medianQ, hsorted]
    simp [compute_stats, spec_stats, percentile, hsorted, hmean, hmed,
      listMin, listMax]
  | x :: y :: rest =>
    have hlen : (sortedData (x :: y :: rest)).length = rest.length + 2 := by
      simp [sortedData_length]
    have hne1 : ¬ (sortedData (x :: y :: rest)).length = 1 := by
      rw [hlen]; omega
    have h2 : 2 ≤ (sortedData (x :: y :: rest)).length := by
      rw [hlen]; omega
    have hp : ∀ p, percentile (sortedData (x :: y :: rest)) p =
        spec_percentile (sortedData (x :: y :: rest)) p := by
      intro p
      simp only [percentile, spec_percentile, if_neg hne1]
    simp only [compute_stats, spec_stats, if_neg (List.cons_ne_nil x (y :: rest)),
      if_pos h2, hp]

/-- A `min`-fold is bounded by its seed. -/
theorem foldl_min_le_init (xs : List ℚ) (a : ℚ) : xs.foldl min a ≤ a := by
  induction xs generalizing a with
  | nil => exact le_refl a
  | cons z zs ih => exact le_trans (ih (min a z)) (min_le_left a z)

/-- A `min`-fold is bounded by every folded element. -/
theorem foldl_min_le_mem (xs : List ℚ) (a y : ℚ) (hy : y ∈ xs) :
    xs.foldl min a ≤ y := by
  induction xs generalizing a with
  | nil => cases hy
  | cons z zs ih =>
    rcases List.mem_cons.mp hy with rfl | hy
    · exact le_trans (foldl_min_le_init zs (min a y)) (min_le_right a y)
    · exact ih (min a z) hy

/-- A `max`-fold dominates its seed. -/
theorem init_le_foldl_max (xs : List ℚ) (a : ℚ) : a ≤ xs.foldl max a := by
  induction xs generalizing a with
  | nil => exact le_refl a
  | cons z zs ih => exact le_trans (le_max_left a z) (ih (max a z))

/-- A `max`-fold dominates every folded element. -/
theorem mem_le_foldl_max (xs : List ℚ) (a y : ℚ) (hy : y ∈ xs) :
    y ≤ xs.foldl max a := by
  induction xs generalizing a with
  | nil => cases hy
  | cons z zs ih =>
    rcases List.mem_cons.mp hy with rfl | hy
    · exact le_trans (le_max_right a y) (init_le_foldl_max zs (max a y))
    · exact ih (max a z) hy

/-- Python's `min` is a lower bound of the list. -/
theorem listMin_le (data : List ℚ) (y : ℚ) (hy : y ∈ data) : listMin data ≤ y := by
  match data with
  | [] => cases hy
  | x :: xs =>
    rcases List.mem_cons.mp hy with rfl | hy
    · exact foldl_min_le_init xs y
    · exact foldl_min_le_mem xs x y hy

/-- Python's `max` is an upper bound of the list. -/
theorem le_listMax (data : List ℚ) (y : ℚ) (hy : y ∈ data) : y ≤ listMax data := by
  match data with
  | [] => cases hy
  | x :: xs =>
    rcases List.mem_cons.mp hy with rfl | hy
    · exact init_le_foldl_max xs y
    · exact mem_le_foldl_max xs x y hy

/-- Total `getD` indexing agrees with `get` in range. -/
theorem getD_eq_get (l : List ℚ) (i : ℕ) (h : i < l.length) :
    l.getD i 0 = l.get ⟨i, h⟩ := by
  simp [List.getD, List.getElem?_eq_getElem h]

/-- In-range `getD` values are members. -/
theorem getD_mem (l : List ℚ) (i : ℕ) (h : i < l.length) : l.getD i 0 ∈ l := by
  rw [getD_eq_get l i h]
  exact List.get_mem l i h

/-- Sorted lists have monotone in-range `getD` access. -/
theorem sorted_getD_mono {s : List ℚ} (hs : List.Sorted (· ≤ ·) s) (i j : ℕ)
    (hij : i ≤ j) (hj : j < s.length) : s.getD i 0 ≤ s.getD j 0 := by
  rw [getD_eq_get s i (lt_of_le_of_lt hij hj), getD_eq_get s j hj]
  exact hs.rel_get_of_le hij

/-- The sorted copy is sorted. -/
theorem sortedData_sorted (data : List ℚ) :
    List.Sorted (· ≤ ·) (sortedData data) :=
  List.sorted_insertionSort (· ≤ ·) data

/-- The sorted copy is a permutation of the data. -/
theorem sortedData_perm (data : List ℚ) : List.Perm (sortedData data) data :=
  List.perm_insertionSort (· ≤ ·) data

/-- Python's `int()` truncation is the floor on nonnegative numbers. -/
theorem truncToInt_of_nonneg (k : ℚ) (h : 0 ≤ k) : truncToInt k = ⌊k⌋ :=
  if_pos h

/-- The interpolated rank value lies between the two order statistics
it interpolates. -/
theorem interpAt_bounds {s : List ℚ} (hs : List.Sorted (· ≤ ·) s) (k : ℚ)
    (hk0 : 0 ≤ k) (hkn : k ≤ (s.length : ℚ) - 1) :
    s.getD ⌊k⌋.toNat 0 ≤ interpAt s k ∧ interpAt s k ≤ s.getD ⌈k⌉.toNat 0 := by
  have hlenQ : (1 : ℚ) ≤ (s.length : ℚ) := by linarith
  have hlen : 1 ≤ s.length := by exact_mod_cast hlenQ
  have hfl0 : 0 ≤ ⌊k⌋ := Int.floor_nonneg.mpr hk0
  have hcl : ⌈k⌉ ≤ (s.length : ℤ) - 1 := by
    rw [Int.ceil_le]
    push_cast
    linarith
  have hflc : ⌊k⌋ ≤ ⌈k⌉ := Int.floor_le_ceil k
  have hlenZ : (1 : ℤ) ≤ (s.length : ℤ) := by exact_mod_cast hlen
  have hcn : ⌈k⌉.toNat < s.length := by omega
  have hfn : ⌊k⌋.toNat < s.length := by omega
  by_cases hfc : ⌊k⌋ = ⌈k⌉
  · have htr : truncToInt k = ⌊k⌋ := truncToInt_of_nonneg k hk0
    simp only [interpAt, if_pos hfc, htr]
    constructor
    · exact le_refl _
    · rw [hfc]
  · simp only [interpAt, if_neg hfc]
    have hc1 : ⌈k⌉ = ⌊k⌋ + 1 := by
      have := Int.ceil_le_floor_add_one k
      omega
    have hab : s.getD ⌊k⌋.toNat 0 ≤ s.getD ⌈k⌉.toNat 0 :=
      sorted_getD_mono hs _ _ (by omega) hcn
    have hfk : (⌊k⌋ : ℚ) ≤ k := Int.floor_le k
    have hkc : k ≤ (⌈k⌉ : ℚ) := Int.le_ceil k
    have hceq : ((⌈k⌉ : ℤ) : ℚ) = ((⌊k⌋ : ℤ) : ℚ) + 1 := by
      rw [hc1]
      push_cast
      ring
    rw [hceq] at hkc ⊢
    constructor
    · nlinarith [mul_nonneg (sub_nonneg.mpr hfk) (sub_nonneg.mpr hab)]
    · nlinarith [mul_nonneg (sub_nonneg.mpr hkc) (sub_nonneg.mpr hab)]

/-- The interpolated rank value is monotone in the rank. -/
theorem interpAt_mono {s : List ℚ} (hs : List.Sorted (· ≤ ·) s) (k1 k2 : ℚ)
    (h0 : 0 ≤ k1) (h12 : k1 ≤ k2) (hn : k2 ≤ (s.length : ℚ) - 1) :
    interpAt s k1 ≤ interpAt s k2 := by
  have h02 : 0 ≤ k2 := le_trans h0 h12
  have h1n : k1 ≤ (s.length : ℚ) - 1 := le_trans h12 hn
  have hb1 := interpAt_bounds hs k1 h0 h1n
  have hb2 := interpAt_bounds hs k2 h02 hn
  have hlenQ : (1 : ℚ) ≤ (s.length : ℚ) := by linarith
  have hlen : 1 ≤ s.length := by exact_mod_cast hlenQ
  have hlenZ : (1 : ℤ) ≤ (s.length : ℤ) := by exact_mod_cast hlen
  have hfl1 : 0 ≤ ⌊k1⌋ := Int.floor_nonneg.mpr h0
  have hfl2 : 0 ≤ ⌊k2⌋ := Int.floor_nonneg.mpr h02
  have hcl1 : 0 ≤ ⌈k1⌉ := le_trans hfl1 (Int.floor_le_ceil k1)
  have hcl2 : ⌈k2⌉ ≤ (s.length : ℤ) - 1 := by
    rw [Int.ceil_le]
    push_cast
    linarith
  have hcc : ⌈k1⌉ ≤ ⌈k2⌉ := Int.ceil_mono h12
  have hf2n : ⌊k2⌋.toNat < s.length := by
    have := Int.floor_le_ceil k2
    omega
  by_cases hcf : ⌈k1⌉ ≤ ⌊k2⌋
  · refine le_trans hb1.2 (le_trans ?_ hb2.1)
    exact sorted_getD_mono hs _ _ (by omega) hf2n
  · push_neg at hcf
    have hff : ⌊k1⌋ = ⌊k2⌋ := by
      have hmono := Int.floor_mono h12
      have := Int.ceil_le_floor_add_one k1
      omega
    by_cases hint1 : ⌊k1⌋ = ⌈k1⌉
    · have hv : interpAt s k1 = s.getD ⌊k1⌋.toNat 0 := by
        simp only [interpAt, if_pos hint1, truncToInt_of_nonneg k1 h0]
      rw [hv, hff]
      exact hb2.1
    · have hc1 : ⌈k1⌉ = ⌊k1⌋ + 1 := by
        have := Int.ceil_le_floor_add_one k1
        omega
      have hint2 : ¬ ⌊k2⌋ = ⌈k2⌉ := by
        intro he
        have hfk2 : (⌊k2⌋ : ℚ) ≤ k2 := Int.floor_le k2
        have hkc2 : k2 ≤ (⌈k2⌉ : ℚ) := Int.le_ceil k2
        rw [← he] at hkc2
        have hk2 : k2 = (⌊k2⌋ : ℚ) := le_antisymm hkc2 hfk2
        have hk1le : k1 ≤ (⌊k1⌋ : ℚ) := by
          rw [hff]
          rw [hk2] at h12
          exact h12
        have hk1 : k1 = (⌊k1⌋ : ℚ) := le_antisymm hk1le (Int.floor_le k1)
        apply hint1
        rw [hk1]
        simp
      have hc2 : ⌈k2⌉ = ⌊k2⌋ + 1 := by
        have := Int.ceil_le_floor_add_one k2
        omega
      have hseg : (⌊k1⌋ + 1).toNat < s.length := by omega
      have hab : s.getD ⌊k1⌋.toNat 0 ≤ s.getD (⌊k1⌋ + 1).toNat 0 :=
        sorted_getD_mono hs _ _ (by omega) hseg
      simp only [interpAt, if_neg hint1, if_neg hint2]
      rw [hc1, hc2, ← hff]
      push_cast
      nlinarith [mul_nonneg (sub_nonneg.mpr h12) (sub_nonneg.mpr hab)]

/-- In-range floor of a rank is an in-range index. -/
theorem floor_rank_lt {s : List ℚ} (k : ℚ) (hk0 : 0 ≤ k)
    (hkn : k ≤ (s.length : ℚ) - 1) : ⌊k⌋.toNat < s.length := by
  have hlenQ : (1 : ℚ) ≤ (s.length : ℚ) := by linarith
  have hlen : 1 ≤ s.length := by exact_mod_cast hlenQ
  have hlenZ : (1 : ℤ) ≤ (s.length : ℤ) := by exact_mod_cast hlen
  have hcl : ⌈k⌉ ≤ (s.length : ℤ) - 1 := by
    rw [Int.ceil_le]
    push_cast
    linarith
  have := Int.floor_le_ceil k
  omega

/-- In-range ceiling of a rank is an in-range index. -/
theorem ceil_rank_lt {s : List ℚ} (k : ℚ) (hk0 : 0 ≤ k)
    (hkn : k ≤ (s.length : ℚ) - 1) : ⌈k⌉.toNat < s.length := by
  have hlenQ : (1 : ℚ) ≤ (s.length : ℚ) := by linarith
  have hlen : 1 ≤ s.length := by exact_mod_cast hlenQ
  have hlenZ : (1 : ℤ) ≤ (s.length : ℤ) := by exact_mod_cast hlen
  have hcl : ⌈k⌉ ≤ (s.length : ℤ) - 1 := by
    rw [Int.ceil_le]
    push_cast
    linarith
  omega

/-- The source's `percentile` closure is the interpolation at rank
`(n - 1) * p / 100` on every non-empty sorted copy: its `n == 1`
special case coincides with the rank-0 interpolation. -/
theorem percentile_eq_interpAt (s : List ℚ) (p : ℚ) :
    percentile s p = interpAt s (((s.length : ℚ) - 1) * (p / 100)) := by
  by_cases h1 : s.length = 1
  · simp only [percentile, if_pos h1, h1]
    norm_num
    simp [interpAt, truncToInt]
  · simp only [percentile, if_neg h1]

/-- Python's `statistics.median` coincides with the interpolation at rank
`(n - 1) * 50 / 100` over the sorted copy. -/
theorem medianQ_eq_interpAt (data : List ℚ) (h : data ≠ []) :
    medianQ data =
      interpAt (sortedData data) ((((sortedData data).length : ℚ) - 1) * (50 / 100)) := by
  have hlen : 1 ≤ (sortedData data).length := by
    rw [sortedData_length]
    exact List.length_pos.mpr h
  rcases Nat.even_or_odd (sortedData data).length with he | ho
  · obtain ⟨m, hm⟩ := he
    have hm1 : 1 ≤ m := by omega
    have hk : (((sortedData data).length : ℚ) - 1) * (50 / 100) = (m : ℚ) - 1 / 2 := by
      rw [hm]
      push_cast
      ring
    have hfl : ⌊(m : ℚ) - 1 / 2⌋ = (m : ℤ) - 1 := by
      rw [Int.floor_eq_iff]
      push_cast
      constructor <;> linarith
    have hcl : ⌈(m : ℚ) - 1 / 2⌉ = (m : ℤ) := by
      rw [Int.ceil_eq_iff]
      push_cast
      constructor <;> linarith [hm1]
    have hneq : ¬ ((m : ℤ) - 1 = (m : ℤ)) := by omega
    have htn1 : ((m : ℤ) - 1).toNat = m - 1 := by omega
    have htn2 : ((m : ℤ)).toNat = m := by omega
    have hmod : ¬ ((sortedData data).length % 2 = 1) := by omega
    have hdiv : (sortedData data).length / 2 = m := by omega
    simp only [medianQ, if_neg hmod, hdiv]
    rw [hk]
    simp only [interpAt, hfl, hcl, if_neg hneq, htn1, htn2]
    push_cast
    ring
  · obtain ⟨m, hm⟩ := ho
    have hk : (((sortedData data).length : ℚ) - 1) * (50 / 100) = (m : ℚ) := by
      rw [hm]
      push_cast
      ring
    have hfl : ⌊((m : ℕ) : ℚ)⌋ = (m : ℤ) := Int.floor_natCast m
    have hcl : ⌈((m : ℕ) : ℚ)⌉ = (m : ℤ) := Int.ceil_natCast m
    have heq : ⌊((m : ℕ) : ℚ)⌋ = ⌈((m : ℕ) : ℚ)⌉ := by rw [hfl, hcl]
    have htr : truncToInt ((m : ℕ) : ℚ) = (m : ℤ) := by
      rw [truncToInt_of_nonneg _ (by positivity), hfl]
    have htn : ((m : ℤ)).toNat = m := by omega
    have hmod : (sortedData data).length % 2 = 1 := by omega
    have hdiv : (sortedData data).length / 2 = m := by omega
    simp only [medianQ, if_pos hmod, hdiv]
    rw [hk]
    simp only [interpAt, if_pos heq, htr, htn]

/-- Python's `min` bounds the arithmetic mean from below on non-empty
data. -/
theorem listMin_le_mean (data : List ℚ) (h : data ≠ []) :
    listMin data ≤ mean data := by
  have hlen : 0 < data.length := List.length_pos.mpr h
  have hlenQ : (0 : ℚ) < (data.length : ℚ) := by exact_mod_cast hlen
  have hsum := List.card_nsmul_le_sum data (listMin data)
    (fun x hx => listMin_le data x hx)
  rw [nsmul_eq_mul] at hsum
  rw [mean, le_div_iff hlenQ]
  linarith

/-- Python's `max` bounds the arithmetic mean from above on non-empty
data. -/
theorem mean_le_listMax (data : List ℚ) (h : data ≠ []) :
    mean data ≤ listMax data := by
  have hlen : 0 < data.length := List.length_pos.mpr h
  have hlenQ : (0 : ℚ) < (data.length : ℚ) := by exact_mod_cast hlen
  have hsum := List.sum_le_card_nsmul data (listMax data)
    (fun x hx => le_listMax data x hx)
  rw [nsmul_eq_mul] at hsum
  rw [mean, div_le_iff hlenQ]
  linarith

/-- The rational statistics fields of a non-empty series' summary. -/
theorem compute_stats_fields (data : List ℚ) (h : data ≠ []) :
    statQ (compute_stats data) "min" = listMin data ∧
    statQ (compute_stats data) "max" = listMax data ∧
    statQ (compute_stats data) "median" = medianQ data ∧
    statQ (compute_stats data) "p90" = percentile (sortedData data) 90 ∧
    statQ (compute_stats data) "p99" = percentile (sortedData data) 99 ∧
    statQ (compute_stats data) "avg" = mean data := by
  refine ⟨?_, ?_, ?_, ?_, ?_, ?_⟩ <;>
    simp [compute_stats, statQ, statVal, h, List.lookup]

/-- C10: for every non-empty input series the summary produced by
`_compute_stats` satisfies the percentile ordering
min ≤ median ≤ p90 ≤ p99 ≤ max together with min ≤ avg ≤ max: the
percentiles interpolate between order statistics of the sorted copy and
are monotone in the percentage, the median coincides with the rank-50
interpolation, and the mean lies between the extrema. -/
theorem compute_stats_percentile_order (data : List ℚ) (h : data ≠ []) :
    statQ (compute_stats data) "min" ≤ statQ (compute_stats data) "median" ∧
    statQ (compute_stats data) "median" ≤ statQ (compute_stats data) "p90" ∧
    statQ (compute_stats data) "p90" ≤ statQ (compute_stats data) "p99" ∧
    statQ (compute_stats data) "p99" ≤ statQ (compute_stats data) "max" ∧
    statQ (compute_stats data) "min" ≤ statQ (compute_stats data) "avg" ∧
    statQ (compute_stats data) "avg" ≤ statQ (compute_stats data) "max" := by
  obtain ⟨hqmin, hqmax, hqmed, hq90, hq99, hqavg⟩ := compute_stats_fields data h
  rw [hqmin, hqmax, hqmed, hq90, hq99, hqavg,
    percentile_eq_interpAt (sortedData data) 90,
    percentile_eq_interpAt (sortedData data) 99,
    medianQ_eq_interpAt data h]
  have hsort := sortedData_sorted data
  have hperm := sortedData_perm data
  have hlen : 1 ≤ (sortedData data).length := by
    rw [sortedData_length]
    exact List.length_pos.mpr h
  have hlenQ : (1 : ℚ) ≤ ((sortedData data).length : ℚ) := by exact_mod_cast hlen
  have hn10 : (0 : ℚ) ≤ ((sortedData data).length : ℚ) - 1 := by linarith
  have hk0 : ∀ p : ℚ, 0 ≤ p →
      (0 : ℚ) ≤ (((sortedData data).length : ℚ) - 1) * (p / 100) := by
    intro p hp
    apply mul_nonneg hn10
    linarith
  have hkub : ∀ p : ℚ, p ≤ 100 →
      (((sortedData data).length : ℚ) - 1) * (p / 100) ≤
        ((sortedData data).length : ℚ) - 1 := by
    intro p hp
    nlinarith
  have hkmono : ∀ p q : ℚ, 0 ≤ p → p ≤ q →
      (((sortedData data).length : ℚ) - 1) * (p / 100) ≤
        (((sortedData data).length : ℚ) - 1) * (q / 100) := by
    intro p q hp hpq
    apply mul_le_mul_of_nonneg_left _ hn10
    linarith
  have hsub : ∀ i, i < (sortedData data).length →
      (sortedData data).getD i 0 ∈ data := by
    intro i hi
    exact hperm.subset (getD_mem (sortedData data) i hi)
  refine ⟨?_, ?_, ?_, ?_, ?_, ?_⟩
  · have hb := interpAt_bounds hsort _ (hk0 50 (by norm_num)) (hkub 50 (by norm_num))
    refine le_trans ?_ hb.1
    exact listMin_le data _
      (hsub _ (floor_rank_lt _ (hk0 50 (by norm_num)) (hkub 50 (by norm_num))))
  · exact interpAt_mono hsort _ _ (hk0 50 (by norm_num))
      (hkmono 50 90 (by norm_num) (by norm_num)) (hkub 90 (by norm_num))
  · exact interpAt_mono hsort _ _ (hk0 90 (by norm_num))
      (hkmono 90 99 (by norm_num) (by norm_num)) (hkub 99 (by norm_num))
  · have hb := interpAt_bounds hsort _ (hk0 99 (by norm_num)) (hkub 99 (by norm_num))
    refine le_trans hb.2 ?_
    exact le_listMax data _
      (hsub _ (ceil_rank_lt _ (hk0 99 (by norm_num)) (hkub 99 (by norm_num))))
  · exact listMin_le_mean data h
  · exact mean_le_listMax data h

/-- C10 witness: the ordering at the concrete series `[3, 1, 2]`. -/
theorem compute_stats_percentile_order_witness :
    (([3, 1, 2] : List ℚ) ≠ []) ∧
    (statQ (compute_stats [3, 1, 2]) "min" ≤ statQ (compute_stats [3, 1, 2]) "median" ∧
     statQ (compute_stats [3, 1, 2]) "median" ≤ statQ (compute_stats [3, 1, 2]) "p90" ∧
     statQ (compute_stats [3, 1, 2]) "p90" ≤ statQ (compute_stats [3, 1, 2]) "p99" ∧
     statQ (compute_stats [3, 1, 2]) "p99" ≤ statQ (compute_stats [3, 1, 2]) "max" ∧
     statQ (compute_stats [3, 1, 2]) "min" ≤ statQ (compute_stats [3, 1, 2]) "avg" ∧
     statQ (compute_stats [3, 1, 2]) "avg" ≤ statQ (compute_stats [3, 1, 2]) "max") :=
  ⟨by simp, compute_stats_percentile_order [3, 1, 2] (by simp)⟩

end LLMBench
